import Mathlib

/-!
# Verification of the media audio normaliser

A shallow embedding of `normalise_audio.py`: the persisted-state loader, the
quick-fingerprint change detector, stream selection and transcode-command
planning, the per-file processing workflow, and the atomic swap used to
publish results.  Machine reals (Python floats) are modelled as exact
rationals; byte strings as `List Nat` with values below 256; external
subprocesses (ffprobe / ffmpeg) as environment parameters describing their
observable results.
-/

/-! ## A small JSON value model (for the persisted state document) -/

/-- A JSON-like value, the shape `json.load` can produce. -/
inductive JVal where
  | jnull : JVal
  | jbool : Bool → JVal
  | jnum : ℚ → JVal
  | jstr : String → JVal
  | jarr : List JVal → JVal
  | jobj : List (String × JVal) → JVal

/-- How an attempt to read and parse the state file can end: the file is
absent, reading raises `IOError`, parsing raises `JSONDecodeError`, or a
value is produced. -/
inductive LoadOutcome where
  | missing : LoadOutcome
  | readFailed : LoadOutcome
  | parseFailed : LoadOutcome
  | parsed : JVal → LoadOutcome

/-- Does a parsed document pass the shape guard of `load_state`
(`isinstance(data, dict) and "files" in data`)? -/
def jHasFilesKey : JVal → Bool
  | JVal.jobj fields => fields.any (fun kv => kv.1 = "files")
  | _ => false

/-- The empty state `{"files": {}}` that `load_state` resets to. -/
def emptyState : JVal := JVal.jobj [("files", JVal.jobj [])]

/-- Model of `load_state`: missing file, read error, parse error, or a document
failing the shape guard all reset to the empty state; a dict containing a
`"files"` key is returned as parsed. -/
def load_state : LoadOutcome → JVal
  | LoadOutcome.missing => emptyState
  | LoadOutcome.readFailed => emptyState
  | LoadOutcome.parseFailed => emptyState
  | LoadOutcome.parsed j => if jHasFilesKey j then j else emptyState

/-- C9: Loading the persisted state document never fails the run: missing
file, unparseable document, or a parsed document that is not a mapping with
a `"files"` key all yield the empty state `{"files": {}}`; every well-formed
document is returned as parsed. -/
theorem load_state_never_fails (o : LoadOutcome) :
    ((∀ j, o = LoadOutcome.parsed j → jHasFilesKey j = false) →
        load_state o = emptyState) ∧
    (∀ j, o = LoadOutcome.parsed j → jHasFilesKey j = true →
        load_state o = j) := by
  constructor
  · intro h
    cases o with
    | missing => rfl
    | readFailed => rfl
    | parseFailed => rfl
    | parsed j =>
        have hj := h j rfl
        simp [load_state, hj]
  · intro j hj hkey
    subst hj
    simp [load_state, hkey]

/-- Witness for C9: a malformed document (a bare array) resets to the empty
state, and a well-formed document is returned unchanged. -/
theorem load_state_never_fails_witness :
    load_state (LoadOutcome.parsed (JVal.jarr [])) = emptyState ∧
    load_state (LoadOutcome.parsed
        (JVal.jobj [("files", JVal.jobj []), ("extra", JVal.jnull)])) =
      JVal.jobj [("files", JVal.jobj []), ("extra", JVal.jnull)] := by
  constructor
  · exact (load_state_never_fails (LoadOutcome.parsed (JVal.jarr []))).1
      (by intro j hj; cases hj; rfl)
  · exact (load_state_never_fails (LoadOutcome.parsed
      (JVal.jobj [("files", JVal.jobj []), ("extra", JVal.jnull)]))).2
      _ rfl rfl

/-! ## SHA-256 (the `hashlib.sha256` the quick fingerprint relies on),
implemented over byte lists with 32-bit words as naturals reduced mod 2^32 -/

def w32 (n : Nat) : Nat := n % 4294967296

def rotr32 (k x : Nat) : Nat := w32 ((x >>> k) ||| (x <<< (32 - k)))

def bsig0 (x : Nat) : Nat := rotr32 2 x ^^^ rotr32 13 x ^^^ rotr32 22 x
def bsig1 (x : Nat) : Nat := rotr32 6 x ^^^ rotr32 11 x ^^^ rotr32 25 x
def ssig0 (x : Nat) : Nat := rotr32 7 x ^^^ rotr32 18 x ^^^ (x >>> 3)
def ssig1 (x : Nat) : Nat := rotr32 17 x ^^^ rotr32 19 x ^^^ (x >>> 10)

def shaK : List Nat :=
  [1116352408, 1899447441, 3049323471, 3921009573, 961987163,
   1508970993, 2453635748, 2870763221, 3624381080, 310598401,
   607225278, 1426881987, 1925078388, 2162078206, 2614888103,
   3248222580, 3835390401, 4022224774, 264347078, 604807628,
   770255983, 1249150122, 1555081692, 1996064986, 2554220882,
   2821834349, 2952996808, 3210313671, 3336571891, 3584528711,
   113926993, 338241895, 666307205, 773529912, 1294757372,
   1396182291, 1695183700, 1986661051, 2177026350, 2456956037,
   2730485921, 2820302411, 3259730800, 3345764771, 3516065817,
   3600352804, 4094571909, 275423344, 430227734, 506948616,
   659060556, 883997877, 958139571, 1322822218, 1537002063,
   1747873779, 1955562222, 2024104815, 2227730452, 2361852424,
   2428436474, 2756734187, 3204031479, 3329325298]

structure Sha8 where
  a : Nat
  b : Nat
  c : Nat
  d : Nat
  e : Nat
  f : Nat
  g : Nat
  h : Nat
deriving DecidableEq

def shaH0 : Sha8 :=
  ⟨1779033703, 3144134277, 1013904242, 2773480762,
   1359893119, 2600822924, 528734635, 1541459225⟩

/-- Big-endian 4-byte groups to 32-bit words. -/
def bytesToWords : List Nat → List Nat
  | b0 :: b1 :: b2 :: b3 :: rest => (((b0 * 256 + b1) * 256 + b2) * 256 + b3) :: bytesToWords rest
  | _ => []

/-- Extend a 16-word schedule by `n` more words. -/
def extendSchedule : Nat → List Nat → List Nat
  | 0, ws => ws
  | n + 1, ws =>
      let i := ws.length
      let nw := w32 (ws.getD (i - 16) 0 + ssig0 (ws.getD (i - 15) 0) +
                     ws.getD (i - 7) 0 + ssig1 (ws.getD (i - 2) 0))
      extendSchedule n (ws ++ [nw])

def shaRound (st : Sha8) (kw : Nat × Nat) : Sha8 :=
  let t1 := w32 (st.h + bsig1 st.e + ((st.e &&& st.f) ^^^ ((2 ^ 32 - 1 - st.e) &&& st.g)) + kw.1 + kw.2)
  let t2 := w32 (bsig0 st.a + ((st.a &&& st.b) ^^^ (st.a &&& st.c) ^^^ (st.b &&& st.c)))
  ⟨w32 (t1 + t2), st.a, st.b, st.c, w32 (st.d + t1), st.e, st.f, st.g⟩

def shaCompress (st : Sha8) (chunk : List Nat) : Sha8 :=
  let ws := extendSchedule 48 (bytesToWords chunk)
  let r := (shaK.zip ws).foldl shaRound st
  ⟨w32 (st.a + r.a), w32 (st.b + r.b), w32 (st.c + r.c), w32 (st.d + r.d),
   w32 (st.e + r.e), w32 (st.f + r.f), w32 (st.g + r.g), w32 (st.h + r.h)⟩

/-- Split a byte list into 64-byte chunks (fuel-driven so that it reduces
definitionally; the fuel `l.length` always suffices). -/
def chunks64Go : Nat → List Nat → List (List Nat)
  | _, [] => []
  | 0, l => [l]
  | fuel + 1, l => l.take 64 :: chunks64Go fuel (l.drop 64)

def chunks64 (l : List Nat) : List (List Nat) := chunks64Go l.length l

/-- SHA-256 padding: 0x80, zeros to 56 mod 64, then the 64-bit big-endian
bit length. -/
def shaPad (msg : List Nat) : List Nat :=
  let len := msg.length
  let zeros := (64 + 56 - (len + 1) % 64) % 64
  let bitLen := (8 * len) % 2 ^ 64
  msg ++ [128] ++ List.replicate zeros 0 ++
    [bitLen / 2 ^ 56 % 256, bitLen / 2 ^ 48 % 256, bitLen / 2 ^ 40 % 256,
     bitLen / 2 ^ 32 % 256, bitLen / 2 ^ 24 % 256, bitLen / 2 ^ 16 % 256,
     bitLen / 2 ^ 8 % 256, bitLen % 256]

def wordBytes (w : Nat) : List Nat :=
  [w / 2 ^ 24 % 256, w / 2 ^ 16 % 256, w / 2 ^ 8 % 256, w % 256]

/-- The 32 digest bytes of SHA-256 of a byte message. -/
def sha256 (msg : List Nat) : List Nat :=
  let fin := (chunks64 (shaPad msg)).foldl shaCompress shaH0
  wordBytes fin.a ++ wordBytes fin.b ++ wordBytes fin.c ++ wordBytes fin.d ++
  wordBytes fin.e ++ wordBytes fin.f ++ wordBytes fin.g ++ wordBytes fin.h

def hexDigits : List Char := (List.range 16).map Nat.digitChar

def bytesToHex : List Nat → List Char
  | [] => []
  | b :: bs => hexDigits.getD (b / 16) '0' :: hexDigits.getD (b % 16) '0' :: bytesToHex bs

def sha256hex (msg : List Nat) : List Char := bytesToHex (sha256 msg)


/-! ## Quick fingerprint (`compute_quick_fingerprint`) -/

def QUICK_FP_BLOCK_MB : Nat := 4

/-- Value of `QUICK_FP_BLOCK_MB * 1024 * 1024`, the per-block sample size. -/
def quickFpBlockSize : Nat := QUICK_FP_BLOCK_MB * 1024 * 1024

/-- Result of the fingerprint computation together with the content reads
it performed, as `(offset, byte count)` pairs. -/
structure FPResult where
  fp : String
  reads : List (Nat × Nat)
deriving DecidableEq

/-- Model of `compute_quick_fingerprint`: hash three short slices (head / middle /
tail) of the file.  `size` is the stat size, `content` the byte content
reads are served from.  A zero-byte file short-circuits to 32 `'0'`
characters before the file is ever opened.  Python's `max(0, a - b)` on
nonnegative ints coincides with truncated `Nat` subtraction. -/
def compute_quick_fingerprint (size : Nat) (content : List Nat) : FPResult :=
  if size = 0 then ⟨String.mk (List.replicate 32 '0'), []⟩
  else
    let bs := quickFpBlockSize
    let headLen := min bs size
    let headB := content.take headLen
    let midStart := size / 2 - bs / 2
    let midLen := min bs (size - midStart)
    let midB := (content.drop midStart).take midLen
    let tailStart := size - bs
    let tailLen := min bs (size - tailStart)
    let tailB := (content.drop tailStart).take tailLen
    ⟨String.mk ((sha256hex (headB ++ midB ++ tailB)).take 32),
     [(0, headLen), (midStart, midLen), (tailStart, tailLen)]⟩

lemma wordBytes_lt {w : Nat} : ∀ b ∈ wordBytes w, b < 256 := by
  intro b hb
  simp only [wordBytes, List.mem_cons, List.not_mem_nil, or_false] at hb
  rcases hb with rfl | rfl | rfl | rfl <;> omega

lemma sha256_bytes_lt {msg : List Nat} : ∀ b ∈ sha256 msg, b < 256 := by
  intro b hb
  simp only [sha256, List.mem_append] at hb
  rcases hb with ((((((h | h) | h) | h) | h) | h) | h) | h <;>
    exact wordBytes_lt _ h

lemma hexDigits_getD_mem {n : Nat} (h : n < 16) :
    hexDigits.getD n '0' ∈ hexDigits := by
  interval_cases n <;> decide

lemma bytesToHex_length (bs : List Nat) :
    (bytesToHex bs).length = 2 * bs.length := by
  induction bs with
  | nil => rfl
  | cons b rest ih => simp [bytesToHex, ih]; ring

lemma bytesToHex_mem {bs : List Nat} (hb : ∀ b ∈ bs, b < 256) :
    ∀ c ∈ bytesToHex bs, c ∈ hexDigits := by
  induction bs with
  | nil => intro c hc; simp [bytesToHex] at hc
  | cons b rest ih =>
      intro c hc
      have hblt : b < 256 := hb b (List.mem_cons_self b rest)
      simp only [bytesToHex, List.mem_cons] at hc
      rcases hc with rfl | rfl | hc
      · exact hexDigits_getD_mem (by omega)
      · exact hexDigits_getD_mem (by omega)
      · exact ih (fun x hx => hb x (List.mem_cons_of_mem b hx)) c hc

lemma sha256hex_length (msg : List Nat) : (sha256hex msg).length = 64 := by
  have h32 : (sha256 msg).length = 32 := by simp [sha256, wordBytes]
  simp [sha256hex, bytesToHex_length, h32]

/-- C10: `compute_quick_fingerprint` always returns a 32-character
hexadecimal string; a zero-byte file gives the fixed string of 32 `'0'`
characters without any content read. -/
theorem compute_quick_fingerprint_hex (size : Nat) (content : List Nat) :
    (compute_quick_fingerprint size content).fp.length = 32 ∧
    (∀ c ∈ (compute_quick_fingerprint size content).fp.toList,
        c ∈ hexDigits) ∧
    (size = 0 →
        (compute_quick_fingerprint size content).fp =
          String.mk (List.replicate 32 '0') ∧
        (compute_quick_fingerprint size content).reads = []) := by
  by_cases h0 : size = 0
  · subst h0
    refine ⟨?_, ?_, fun _ => ⟨rfl, rfl⟩⟩
    · simp [compute_quick_fingerprint, String.length]
    · intro c hc
      have he : (compute_quick_fingerprint 0 content).fp.toList =
          List.replicate 32 '0' := rfl
      rw [he, List.mem_replicate] at hc
      rw [hc.2]
      decide
  · constructor
    · simp only [compute_quick_fingerprint, if_neg h0, String.length]
      rw [List.length_take, sha256hex_length]
      omega
    · refine ⟨?_, fun h => absurd h h0⟩
      intro c hc
      simp only [compute_quick_fingerprint, if_neg h0, String.toList,
        String.mk] at hc
      exact bytesToHex_mem sha256_bytes_lt c (List.mem_of_mem_take hc)

/-- Witness for C10 at a zero-byte file: the fingerprint is 32 `'0'`
characters and no content read happens. -/
theorem compute_quick_fingerprint_hex_witness :
    (compute_quick_fingerprint 0 [1, 2, 3]).fp =
        String.mk (List.replicate 32 '0') ∧
    (compute_quick_fingerprint 0 [1, 2, 3]).reads = [] :=
  (compute_quick_fingerprint_hex 0 [1, 2, 3]).2.2 rfl

/-! ## Files, signatures and the persisted record map -/

/-- The facts about a file the detector consults: its state-map key
(`str(path)`), its basename (`path.name`), its extension (`path.suffix`),
the stat size and modification time, and the byte content reads return. -/
structure PFile where
  pathStr : String
  name : String
  suffix : String
  size : Nat
  mtimeNs : Nat
  content : List Nat

/-- A record of the `"files"` map.  Every field is optional, matching
`dict.get` on a record that may lack keys. -/
structure SRecord where
  sig : Option String
  qfp : Option String
  doneAt : Option String
deriving DecidableEq

/-- The `"files"` map keyed by absolute path, as an association list with
Python-dict lookup (last binding wins). -/
abbrev StateMap := List (String × SRecord)

/-- Dict lookup, last binding wins. -/
def dget {α β : Type} [DecidableEq α] : List (α × β) → α → Option β
  | [], _ => none
  | kv :: rest, key =>
      match dget rest key with
      | some v => some v
      | none => if kv.1 = key then some kv.2 else none

/-- Dict assignment: drop any old binding for the key, bind it anew. -/
def dset (m : StateMap) (k : String) (v : SRecord) : StateMap :=
  m.filter (fun kv => kv.1 ≠ k) ++ [(k, v)]

def VIDEO_EXTS : List String := [".mkv", ".mp4", ".mov", ".m4v"]

def SAMPLE_NAME_TOKENS : List String := ["sample", "trailer", "teaser"]

def MIN_FILE_SIZE_BYTES : Nat := 50 * 1024 * 1024

/-- Python's `str.lower()` (character-wise, which is all the ASCII
extensions and sample tokens need). -/
def strLower (s : String) : String := String.mk (s.toList.map Char.toLower)

/-- Model of `file_signature`, the string of size and mtime joined by a dash. -/
def file_signature (p : PFile) : String :=
  toString p.size ++ "-" ++ toString p.mtimeNs

/-- Does `pat` occur at the head of `l`? -/
def leadsWith : List Char → List Char → Bool
  | [], _ => true
  | _ :: _, [] => false
  | a :: as, b :: bs => a = b && leadsWith as bs

/-- Does `pat` occur anywhere in `l`? -/
def containsSub (pat : List Char) : List Char → Bool
  | [] => pat.isEmpty
  | c :: t => leadsWith pat (c :: t) || containsSub pat t

/-- Python's `pat in s` substring test. -/
def strContains (s pat : String) : Bool := containsSub pat.toList s.toList

/-- Model of `should_skip_as_sample` with `SKIP_SAMPLES = True`: name contains a
sample token, or the stat size is below the minimum. -/
def should_skip_as_sample (p : PFile) : Bool :=
  SAMPLE_NAME_TOKENS.any (fun tok => strContains (strLower p.name) tok) ||
    decide (p.size < MIN_FILE_SIZE_BYTES)

/-! ## Fast change detector (`should_process`) -/

/-- What one `should_process` call produced: its boolean result, the
`"files"` map afterwards, and the content reads performed. -/
structure SPResult where
  result : Bool
  files : StateMap
  reads : List (Nat × Nat)
deriving DecidableEq

/-- Model of `should_process`: reject non-video extensions and sample-like files;
then the two-tier check — skip on signature match; on signature drift
compute the quick fingerprint once, updating the stored signature in place
when the fingerprint still matches.  `now` stands for `utc_now_z()`. -/
def should_process (p : PFile) (files : StateMap) (now : String) : SPResult :=
  if !(VIDEO_EXTS.contains (strLower p.suffix)) then ⟨false, files, []⟩
  else if should_skip_as_sample p then ⟨false, files, []⟩
  else
    let sigNow := file_signature p
    match dget files p.pathStr with
    | none => ⟨true, files, []⟩
    | some r =>
        if r.sig = some sigNow then ⟨false, files, []⟩
        else
          let q := compute_quick_fingerprint p.size p.content
          if r.qfp = some q.fp then
            ⟨false,
             dset files p.pathStr
               { r with sig := some sigNow, doneAt := some now },
             q.reads⟩
          else ⟨true, files, q.reads⟩

lemma dget_append_single (m : List (String × SRecord)) (k : String)
    (v : SRecord) : dget (m ++ [(k, v)]) k = some v := by
  induction m with
  | nil => simp [dget]
  | cons kv rest ih => simp [dget, ih]

lemma dget_dset (m : StateMap) (k : String) (v : SRecord) :
    dget (dset m k v) k = some v := dget_append_single _ k v

/-- C3: a candidate video file whose stored signature equals the current
cheap signature is skipped: `should_process` returns `false`, reads no
content, and leaves the store untouched. -/
theorem should_process_sig_match (p : PFile) (files : StateMap)
    (now : String) (r : SRecord)
    (hext : VIDEO_EXTS.contains (strLower p.suffix) = true)
    (hsamp : should_skip_as_sample p = false)
    (hrec : dget files p.pathStr = some r)
    (hsig : r.sig = some (file_signature p)) :
    should_process p files now = ⟨false, files, []⟩ := by
  simp [should_process, hext, hsamp, hrec, hsig]

/-- Witness for C3: a concrete 50 MiB `.mkv` file whose stored record
carries the current signature. -/
theorem should_process_sig_match_witness :
    should_process
        ⟨"F", "a.mkv", ".mkv", 52428800, 7, []⟩
        [("F", ⟨some "52428800-7", some "q", some "t"⟩)] "now" =
      ⟨false, [("F", ⟨some "52428800-7", some "q", some "t"⟩)], []⟩ :=
  should_process_sig_match
    ⟨"F", "a.mkv", ".mkv", 52428800, 7, []⟩
    [("F", ⟨some "52428800-7", some "q", some "t"⟩)] "now"
    ⟨some "52428800-7", some "q", some "t"⟩
    (by decide) (by decide) (by decide) (by decide)

/-- C4: a candidate video file whose signature drifted but whose quick
fingerprint still matches is skipped, and its stored record is refreshed
with the new signature (`sig` and `done_at` rewritten, `qfp` kept). -/
theorem should_process_qfp_match (p : PFile) (files : StateMap)
    (now : String) (r : SRecord)
    (hext : VIDEO_EXTS.contains (strLower p.suffix) = true)
    (hsamp : should_skip_as_sample p = false)
    (hrec : dget files p.pathStr = some r)
    (hsig : r.sig ≠ some (file_signature p))
    (hqfp : r.qfp = some (compute_quick_fingerprint p.size p.content).fp) :
    (should_process p files now).result = false ∧
    dget (should_process p files now).files p.pathStr =
      some { r with sig := some (file_signature p), doneAt := some now } := by
  have hstep : should_process p files now =
      ⟨false,
       dset files p.pathStr
         { r with sig := some (file_signature p), doneAt := some now },
       (compute_quick_fingerprint p.size p.content).reads⟩ := by
    have hmem : strLower p.suffix ∈ VIDEO_EXTS := by simpa using hext
    simp [should_process, hmem, hsamp, hrec, hsig, hqfp]
  rw [hstep]
  exact ⟨rfl, dget_dset files p.pathStr _⟩

set_option maxRecDepth 8000 in
/-- Witness for C4: a 50 MiB `.mkv` whose stored signature is stale but
whose stored fingerprint matches the recomputed one; the record is
refreshed with the current signature. -/
theorem should_process_qfp_match_witness :
    (should_process ⟨"F", "a.mkv", ".mkv", 52428800, 7, []⟩
        [("F", ⟨some "1-1", some "e3b0c44298fc1c149afbf4c8996fb924", some "t"⟩)]
        "now").result = false ∧
    dget (should_process ⟨"F", "a.mkv", ".mkv", 52428800, 7, []⟩
        [("F", ⟨some "1-1", some "e3b0c44298fc1c149afbf4c8996fb924", some "t"⟩)]
        "now").files "F" =
      some ⟨some "52428800-7", some "e3b0c44298fc1c149afbf4c8996fb924",
            some "now"⟩ :=
  should_process_qfp_match
    ⟨"F", "a.mkv", ".mkv", 52428800, 7, []⟩
    [("F", ⟨some "1-1", some "e3b0c44298fc1c149afbf4c8996fb924", some "t"⟩)]
    "now"
    ⟨some "1-1", some "e3b0c44298fc1c149afbf4c8996fb924", some "t"⟩
    (by decide) (by decide) (by decide) (by decide) (by decide)

/-! ## Stream metadata, main-audio selection and the transcode plan -/

/-- One ffprobe stream descriptor: absolute container index, codec type,
codec name, and `disposition.get("default", 0)`. -/
structure FfStream where
  index : Nat
  codecType : String
  codecName : Option String
  dispositionDefault : Nat
deriving DecidableEq

/-- ffprobe metadata: the ordered stream list. -/
structure FfMeta where
  streams : List FfStream
deriving DecidableEq

/-- Model of `find_main_audio_abs_index`: the first audio stream with the default
disposition flag, else the first audio stream, else `None`. -/
def find_main_audio_abs_index (m : FfMeta) : Option Nat :=
  let audioStreams := m.streams.filter (fun s => s.codecType == "audio")
  match audioStreams with
  | [] => none
  | a0 :: _ =>
      match audioStreams.find? (fun s => s.dispositionDefault == 1) with
      | some s => some s.index
      | none => some a0.index

/-- Body of `build_audio_absindex_to_order`, unfolded: walk the streams, numbering
audio streams from 0. -/
def buildOrderGo : List FfStream → Nat → List (Nat × Nat)
  | [], _ => []
  | s :: rest, order =>
      if s.codecType == "audio" then
        (s.index, order) :: buildOrderGo rest (order + 1)
      else buildOrderGo rest order

/-- Absolute stream index → 0-based position among audio streams. -/
def build_audio_absindex_to_order (m : FfMeta) : List (Nat × Nat) :=
  buildOrderGo m.streams 0

def CODEC_ENCODER_MAP : List (String × String) :=
  [("ac3", "ac3"), ("eac3", "eac3"), ("aac", "aac"), ("mp3", "libmp3lame"),
   ("opus", "libopus"), ("flac", "flac"), ("dts", "dca"),
   ("truehd", "truehd"), ("alac", "alac"), ("pcm_s16le", "pcm_s16le"),
   ("pcm_s24le", "pcm_s24le")]

def PREFER_DOWNMAP : List (String × String) := [("dts", "ac3"), ("truehd", "ac3")]

def AUDIO_BITRATE : String := "192k"

/-- Model of `encoder_for_codec`: apply the downgrade map, then the encoder map,
falling back to AAC. -/
def encoder_for_codec (codecName : String) : String :=
  let c0 := strLower codecName
  let c1 := match dget PREFER_DOWNMAP c0 with
            | some c => c
            | none => c0
  (dget CODEC_ENCODER_MAP c1).getD "aac"

/-- Per-audio-stream codec directives of `build_map_and_codecs`: the main
stream is re-encoded (with a bitrate only for lossy encoders), every other
audio stream is copied.  A missing audio-order entry is Python's
`KeyError`. -/
def audioCodecArgs (mapping : List (Nat × Nat)) (mainAbs : Nat) :
    List FfStream → Except String (List String)
  | [] => Except.ok []
  | s :: rest =>
      match dget mapping s.index with
      | none => Except.error "KeyError"
      | some aOrd =>
          let args :=
            if s.index = mainAbs then
              let enc := encoder_for_codec (strLower (s.codecName.getD ""))
              ["-c:a:" ++ toString aOrd, enc] ++
                (if ["flac", "alac", "truehd", "pcm_s16le",
                     "pcm_s24le"].contains enc
                 then []
                 else ["-b:a:" ++ toString aOrd, AUDIO_BITRATE])
            else ["-c:a:" ++ toString aOrd, "copy"]
          match audioCodecArgs mapping mainAbs rest with
          | Except.ok more => Except.ok (args ++ more)
          | Except.error e => Except.error e

/-- Model of `build_map_and_codecs`: the `-map` arguments, the codec directives and
the main audio stream's output order. -/
def build_map_and_codecs (m : FfMeta) (mainAbs : Nat) (skipSubtitles : Bool) :
    Except String (List String × List String × Nat) :=
  let maps := if skipSubtitles then ["-map", "0:v?", "-map", "0:a"]
              else ["-map", "0"]
  let codecs0 := ["-c:v", "copy", "-c:d", "copy"] ++
    (if !skipSubtitles then ["-c:s", "copy"] else [])
  let mapping := build_audio_absindex_to_order m
  match dget mapping mainAbs with
  | none => Except.error "Main audio stream not found in audio order mapping"
  | some mainOrder =>
      match audioCodecArgs mapping mainAbs
          (m.streams.filter (fun s => s.codecType == "audio")) with
      | Except.error e => Except.error e
      | Except.ok rest => Except.ok (maps, codecs0 ++ rest, mainOrder)

/-! ## Gain formatting and the transcode command -/

def TARGET_PEAK_DBFS : ℚ := -(1 / 10)

def pad3 (n : Nat) : String :=
  if n < 10 then "00" ++ toString n
  else if n < 100 then "0" ++ toString n
  else toString n

/-- Python `f"{x:+.3f}"` on an exact rational: sign, integer part, three
decimals, rounding half to even as the float formatter does. -/
def fmtPlusDot3 (q : ℚ) : String :=
  let sign := if q < 0 then "-" else "+"
  let a : ℚ := if q < 0 then -q else q
  let s : ℚ := a * 1000
  let fl : Nat := s.num.toNat / s.den
  let r : ℚ := s - (fl : ℚ)
  let n : Nat :=
    if r < 1 / 2 then fl
    else if (1 / 2 : ℚ) < r then fl + 1
    else if fl % 2 = 0 then fl else fl + 1
  sign ++ toString (n / 1000) ++ "." ++ pad3 (n % 1000)

/-- The `volume={gain_db:+.3f}dB` filter string of `apply_peak_gain`. -/
def volumeFilter (gainDb : ℚ) : String := "volume=" ++ fmtPlusDot3 gainDb ++ "dB"

def FFMPEG_THREADS_PER_JOB : Nat := 4

def FASTSTART : Bool := true

/-- The ffmpeg command `apply_peak_gain` assembles: map everything, attach
the volume filter to the main audio's output order, append the codec
directives and container flags. -/
def apply_peak_gain_cmd (src dst srcSuffix : String) (m : FfMeta)
    (mainAbs : Nat) (gainDb : ℚ) (skipSubtitles : Bool) :
    Except String (List String) :=
  match build_map_and_codecs m mainAbs skipSubtitles with
  | Except.error e => Except.error e
  | Except.ok (maps, codecs, mainOrder) =>
      Except.ok
        (["ffmpeg", "-hide_banner", "-threads",
          toString FFMPEG_THREADS_PER_JOB, "-y", "-i", src]
         ++ maps
         ++ ["-filter:a:" ++ toString mainOrder, volumeFilter gainDb]
         ++ codecs
         ++ (if strLower srcSuffix == ".m4v" then ["-f", "mp4"] else [])
         ++ (if FASTSTART &&
                [".mp4", ".m4v", ".mov"].contains (strLower srcSuffix)
             then ["-movflags", "+faststart"] else [])
         ++ ["-progress", "pipe:1", "-nostats", dst])

/-- A three-stream file: video, one default-flagged AC3 audio stream at
absolute index 1 (hence audio output order 0), one subtitle stream. -/
def c2Meta : FfMeta :=
  ⟨[⟨0, "video", some "h264", 1⟩, ⟨1, "audio", some "ac3", 1⟩,
    ⟨2, "subtitle", some "subrip", 0⟩]⟩

/-- The command `apply_peak_gain` assembles for `c2Meta` at gain +2.9 dB. -/
def c2Cmd : List String :=
  ["ffmpeg", "-hide_banner", "-threads", "4", "-y", "-i", "in.mkv",
   "-map", "0", "-filter:a:0", "volume=+2.900dB", "-c:v", "copy",
   "-c:d", "copy", "-c:s", "copy", "-c:a:0", "ac3", "-b:a:0", "192k",
   "-progress", "pipe:1", "-nostats", "out.mkv"]

/-- The `:+.3f` rendering of the +2.9 dB gain. -/
lemma volumeFilter_29_10 : volumeFilter (29 / 10 : ℚ) = "volume=+2.900dB" := by
  unfold volumeFilter fmtPlusDot3
  norm_num
  simp only [show Int.toNat 2900 = 2900 from rfl]
  norm_num [pad3]
  rfl

/-- Counterexample to C2 as stated: for measured peak −3.0 dBFS and target
−0.1 dBFS the gain is +2.9 dB, but the gain filter string the command
carries is `volume=+2.900dB` (the `:+.3f` format) — the claimed string
`+2.90dB` occurs nowhere in the command. -/
theorem gain_filter_two_decimals_cex :
    TARGET_PEAK_DBFS - (-3 : ℚ) = 29 / 10 ∧
    apply_peak_gain_cmd "in.mkv" "out.mkv" ".mkv" c2Meta 1 (29 / 10) false =
      Except.ok c2Cmd ∧
    c2Cmd.contains "volume=+2.900dB" = true ∧
    c2Cmd.all (fun a => !(strContains a "+2.90dB")) = true := by
  refine ⟨by norm_num [TARGET_PEAK_DBFS], ?_, by decide, by decide⟩
  have hstep : apply_peak_gain_cmd "in.mkv" "out.mkv" ".mkv" c2Meta 1
      (29 / 10) false =
      Except.ok ["ffmpeg", "-hide_banner", "-threads", "4", "-y", "-i",
        "in.mkv", "-map", "0", "-filter:a:0", volumeFilter (29 / 10), "-c:v",
        "copy", "-c:d", "copy", "-c:s", "copy", "-c:a:0", "ac3", "-b:a:0",
        "192k", "-progress", "pipe:1", "-nostats", "out.mkv"] := rfl
  rw [hstep, volumeFilter_29_10]
  rfl

/-- C2 (amended): for measured peak −3.0 dBFS and target −0.1 dBFS the
computed gain is +2.9 dB, and the transcode command carries the gain
filter string `volume=+2.900dB` attached (via `-filter:a:N`) to the main
audio stream's output order `N` — the position from the audio-order
mapping, not the absolute container index. -/
theorem gain_filter_at_audio_order (src dst sfx : String) (m : FfMeta)
    (mainAbs mainOrder : Nat) (cmd : List String)
    (hord : dget (build_audio_absindex_to_order m) mainAbs = some mainOrder)
    (hcmd : apply_peak_gain_cmd src dst sfx m mainAbs
        (TARGET_PEAK_DBFS - (-3 : ℚ)) false = Except.ok cmd) :
    TARGET_PEAK_DBFS - (-3 : ℚ) = 29 / 10 ∧
    ∃ pre suf,
      cmd = pre ++ ["-filter:a:" ++ toString mainOrder, "volume=+2.900dB"]
              ++ suf := by
  refine ⟨by norm_num [TARGET_PEAK_DBFS], ?_⟩
  have hvf : volumeFilter (TARGET_PEAK_DBFS - (-3 : ℚ)) = "volume=+2.900dB" := by
    rw [show TARGET_PEAK_DBFS - (-3 : ℚ) = 29 / 10 by
      norm_num [TARGET_PEAK_DBFS]]
    exact volumeFilter_29_10
  simp only [apply_peak_gain_cmd, build_map_and_codecs, hord] at hcmd
  cases ha : audioCodecArgs (build_audio_absindex_to_order m) mainAbs
      (m.streams.filter (fun s => s.codecType == "audio")) with
  | error e => rw [ha] at hcmd; cases hcmd
  | ok rest =>
      rw [ha] at hcmd
      cases hcmd
      rw [hvf]
      exact ⟨["ffmpeg", "-hide_banner", "-threads",
              toString FFMPEG_THREADS_PER_JOB, "-y", "-i", src, "-map", "0"],
             _, rfl⟩

/-- Witness for the amended C2 at the concrete three-stream file: the main
audio stream (absolute index 1) sits at audio output order 0, and the
filter pair lands there. -/
theorem gain_filter_at_audio_order_witness :
    ∃ pre suf,
      c2Cmd = pre ++ ["-filter:a:" ++ toString 0, "volume=+2.900dB"] ++ suf :=
  (gain_filter_at_audio_order "in.mkv" "out.mkv" ".mkv" c2Meta 1 0 c2Cmd
    (by decide)
    (by
      have hvf : volumeFilter (TARGET_PEAK_DBFS - (-3 : ℚ)) =
          "volume=+2.900dB" := by
        rw [show TARGET_PEAK_DBFS - (-3 : ℚ) = 29 / 10 by
          norm_num [TARGET_PEAK_DBFS]]
        exact volumeFilter_29_10
      have hstep : apply_peak_gain_cmd "in.mkv" "out.mkv" ".mkv" c2Meta 1
          (TARGET_PEAK_DBFS - (-3 : ℚ)) false =
          Except.ok ["ffmpeg", "-hide_banner", "-threads", "4", "-y", "-i",
            "in.mkv", "-map", "0", "-filter:a:0",
            volumeFilter (TARGET_PEAK_DBFS - (-3 : ℚ)), "-c:v", "copy",
            "-c:d", "copy", "-c:s", "copy", "-c:a:0", "ac3", "-b:a:0",
            "192k", "-progress", "pipe:1", "-nostats", "out.mkv"] := rfl
      rw [hstep, hvf]
      rfl)).2

/-! ## Atomic publish (`atomic_swap_with_retry`)

The filesystem is reduced to the three locations the function touches:
the final path, the tmp path, and backup files (by numeric name, since a
denied unlink switches to a fresh uniquely-suffixed name).  Each location
holds the original or the newly transcoded content.  Transient
`PermissionError`/`OSError` faults are injected per attempt by a fault
schedule; `os.replace` additionally fails by itself when its source is
missing (`FileNotFoundError ⊂ OSError`). -/

/-- Content tag: the original file or the new transcoded output. -/
inductive FC where
  | original : FC
  | transcoded : FC
deriving DecidableEq

/-- The filesystem as the swap sees it. -/
structure SwapFS where
  final : Option FC
  tmp : Option FC
  backups : List (Nat × FC)
deriving DecidableEq

/-- Which injected transient faults hit attempt `i` (1-based). -/
structure SwapFaults where
  staleUnlink : Nat → Bool
  renameToBackup : Nat → Bool
  renameTmpToFinal : Nat → Bool
  cleanupUnlink : Nat → Bool

def eraseBackup (fs : SwapFS) (b : Nat) : SwapFS :=
  { fs with backups := fs.backups.filter (fun kv => kv.1 ≠ b) }

def backupExists (fs : SwapFS) (b : Nat) : Bool :=
  fs.backups.any (fun kv => kv.1 = b)

/-- One pass through the `try` block of the retry loop, at attempt number
`i`, with current backup name `b` and fresh-name counter `c`.  `Sum.inl`
is a `return` (success after both renames); `Sum.inr` is a raised
`PermissionError`/`OSError` carrying the filesystem as mutated so far and
the (possibly renamed) backup path. -/
def swapAttempt (f : SwapFaults) (i : Nat) (fs : SwapFS) (b c : Nat) :
    (Bool × SwapFS) ⊕ (SwapFS × Nat × Nat) :=
  let (fs1, b1, c1) :=
    if backupExists fs b then
      if f.staleUnlink i then (fs, c, c + 1)
      else (eraseBackup fs b, b, c)
    else (fs, b, c)
  match fs1.final with
  | none => Sum.inr (fs1, b1, c1)
  | some fc =>
      if f.renameToBackup i then Sum.inr (fs1, b1, c1)
      else
        let fs2 : SwapFS :=
          ⟨none, fs1.tmp, (b1, fc) :: (eraseBackup fs1 b1).backups⟩
        match fs2.tmp with
        | none => Sum.inr (fs2, b1, c1)
        | some tc =>
            if f.renameTmpToFinal i then Sum.inr (fs2, b1, c1)
            else
              let fs3 : SwapFS := ⟨some tc, none, fs2.backups⟩
              let fs4 := if f.cleanupUnlink i then fs3 else eraseBackup fs3 b1
              Sum.inl (true, fs4)

/-- The retry loop.  `remaining` counts the attempts left (the pattern
`r + 1` is attempt `retries - r`); the `except` handler returns `False`
when the tmp file is gone or the attempt cap is reached, otherwise sleeps
and retries.  The trailing `(false, fs)` for `remaining = 0` is the
fallback `return False` after the loop. -/
def swapGo (f : SwapFaults) (retries : Nat) :
    Nat → SwapFS → Nat → Nat → Bool × SwapFS
  | 0, fs, _, _ => (false, fs)
  | r + 1, fs, b, c =>
      match swapAttempt f (retries - r) fs b c with
      | Sum.inl result => result
      | Sum.inr (fs1, b1, c1) =>
          if fs1.tmp = none then (false, fs1)
          else if r = 0 then (false, fs1)
          else swapGo f retries r fs1 b1 c1

/-- Model of `atomic_swap_with_retry` with its default `retries=6`, starting from
backup name 0 (`path + ".bak"`) and fresh unique names 1, 2, ... -/
def atomic_swap_with_retry (f : SwapFaults) (fs : SwapFS)
    (retries : Nat := 6) : Bool × SwapFS :=
  swapGo f retries retries fs 0 1

/-- Does any of the three locations still hold the original content? -/
def originalSomewhere (fs : SwapFS) : Bool :=
  fs.final = some FC.original || fs.tmp = some FC.original ||
    fs.backups.any (fun kv => kv.2 = FC.original)

/-- The fault schedule of the C1 failing run: `os.replace(tmp, final)` is
denied on every attempt (a transient lock on the destination); every other
operation succeeds. -/
def c1Faults : SwapFaults :=
  ⟨fun _ => false, fun _ => false, fun _ => true, fun _ => false⟩

/-- C1 fails on the code: with the original at the final path and the
transcoded output at the tmp path, a run whose second rename is denied on
every attempt returns failure with the original file missing — and not
even recoverable from a backup, because attempt 2 deletes the attempt-1
backup (holding the only copy of the original) as a stale leftover.  The
tmp file is left intact, but nothing is ever restored, contradicting the
claimed restore-before-reporting-failure behaviour. -/
theorem atomic_swap_loses_original :
    atomic_swap_with_retry c1Faults ⟨some FC.original, some FC.transcoded, []⟩ =
      (false, ⟨none, some FC.transcoded, []⟩) ∧
    originalSomewhere
      (atomic_swap_with_retry c1Faults
        ⟨some FC.original, some FC.transcoded, []⟩).2 = false := by
  constructor
  · rfl
  · rfl

/-! ## The per-file workflow (`process_file`)

External subprocesses are modelled by an environment describing their
observable results; the function returns its outcome, the `"files"` map
afterwards, and the externally visible transcode events. -/

/-- Result of one engine invocation inside `apply_peak_gain`: a zero exit,
or a `RuntimeError` message (engine failure or timeout). -/
inductive TRes where
  | ok : TRes
  | err : String → TRes
deriving DecidableEq

/-- The external world one `process_file` call observes. -/
structure PFEnv where
  probe : Except String FfMeta
  measured : Except String (Option ℚ)
  transcodeWithSubs : TRes
  transcodeNoSubs : TRes
  tmpLeftAfterFail : Bool
  tmpStat : Option Nat
  swapOk : Bool

/-- Externally visible workflow events. -/
inductive Ev where
  | transcodeInvoked : Bool → Ev
  | tmpDeleted : Ev
deriving DecidableEq

/-- How `process_file` ends. `exc` is an exception propagating to the
scheduler's worker. -/
inductive PFOutcome where
  | noAudio : PFOutcome
  | noPeak : PFOutcome
  | alreadyNormalized : PFOutcome
  | swapFailed : PFOutcome
  | success : PFOutcome
  | exc : String → PFOutcome
deriving DecidableEq

structure PFRes where
  outcome : PFOutcome
  files : StateMap
  events : List Ev
deriving DecidableEq

/-- The diagnostic signatures that trigger the subtitle-free retry. -/
def SUBTITLE_ERROR_KEYWORDS : List String :=
  ["subtitle", "srt", "binding an input stream", "codec 0 is not supported",
   "could not write header", "function not implemented",
   "incorrect codec parameters"]

/-- The check `any(keyword in error_msg for keyword in ...)` on the lowercased
diagnostic. -/
def isSubtitleSignature (msg : String) : Bool :=
  SUBTITLE_ERROR_KEYWORDS.any (fun k => strContains (strLower msg) k)

def MIN_OUTPUT_FILE_SIZE_BYTES : Nat := 1024

/-- The completion record `process_file` stores: fresh signature, fresh
quick fingerprint, completion timestamp. -/
def freshRecord (p : PFile) (now : String) : SRecord :=
  ⟨some (file_signature p),
   some (compute_quick_fingerprint p.size p.content).fp, some now⟩

/-- One `apply_peak_gain` call: `build_map_and_codecs` may raise before
the engine ever runs; otherwise the engine is invoked and succeeds or
fails per the environment. -/
def applyRun (env : PFEnv) (m : FfMeta) (mainAbs : Nat) (skipSubs : Bool) :
    Except String Unit × List Ev :=
  match build_map_and_codecs m mainAbs skipSubs with
  | Except.error e => (Except.error e, [])
  | Except.ok _ =>
      match (if skipSubs then env.transcodeNoSubs else env.transcodeWithSubs) with
      | TRes.ok => (Except.ok (), [Ev.transcodeInvoked skipSubs])
      | TRes.err msg => (Except.error msg, [Ev.transcodeInvoked skipSubs])

/-- The tail of `process_file` after a transcode succeeded: validate the
tmp output, swap it into place, record completion. -/
def afterTranscode (env : PFEnv) (p : PFile) (files : StateMap)
    (now : String) (evs : List Ev) : PFRes :=
  match env.tmpStat with
  | none => ⟨PFOutcome.exc "Output file looks invalid or too small", files, evs⟩
  | some sz =>
      if sz < MIN_OUTPUT_FILE_SIZE_BYTES then
        ⟨PFOutcome.exc "Output file looks invalid or too small", files, evs⟩
      else if env.swapOk then
        ⟨PFOutcome.success, dset files p.pathStr (freshRecord p now), evs⟩
      else ⟨PFOutcome.swapFailed, files, evs⟩

/-- Model of `process_file`: probe, select main audio, measure, no-op below the
0.05 dB epsilon, transcode with the subtitle-compatibility fallback,
validate, swap, record. -/
def process_file (env : PFEnv) (p : PFile) (files : StateMap)
    (now : String) : PFRes :=
  match env.probe with
  | Except.error e => ⟨PFOutcome.exc e, files, []⟩
  | Except.ok meta =>
      match find_main_audio_abs_index meta with
      | none => ⟨PFOutcome.noAudio, files, []⟩
      | some mainIdx =>
          match env.measured with
          | Except.error e => ⟨PFOutcome.exc e, files, []⟩
          | Except.ok none => ⟨PFOutcome.noPeak, files, []⟩
          | Except.ok (some peak) =>
              let gainDb := TARGET_PEAK_DBFS - peak
              if gainDb ≤ 1 / 20 then
                ⟨PFOutcome.alreadyNormalized,
                 dset files p.pathStr (freshRecord p now), []⟩
              else
                match applyRun env meta mainIdx false with
                | (Except.ok _, evs) => afterTranscode env p files now evs
                | (Except.error msg, evs) =>
                    if isSubtitleSignature msg then
                      let evs1 := evs ++
                        (if env.tmpLeftAfterFail then [Ev.tmpDeleted] else [])
                      match applyRun env meta mainIdx true with
                      | (Except.ok _, evs2) =>
                          afterTranscode env p files now (evs1 ++ evs2)
                      | (Except.error msg2, evs2) =>
                          ⟨PFOutcome.exc msg2, files, evs1 ++ evs2⟩
                    else ⟨PFOutcome.exc msg, files, evs⟩

/-- C5: when the computed gain (target minus measured peak) is at most the
0.05 dB epsilon, no transcode is invoked and the store receives the
completion record (fresh signature, fresh fingerprint, timestamp). -/
theorem no_transcode_below_epsilon (env : PFEnv) (p : PFile)
    (files : StateMap) (now : String) (m : FfMeta) (i : Nat) (peak : ℚ)
    (hp : env.probe = Except.ok m)
    (hf : find_main_audio_abs_index m = some i)
    (hm : env.measured = Except.ok (some peak))
    (hg : TARGET_PEAK_DBFS - peak ≤ 1 / 20) :
    (process_file env p files now).outcome = PFOutcome.alreadyNormalized ∧
    (process_file env p files now).events = [] ∧
    dget (process_file env p files now).files p.pathStr =
      some (freshRecord p now) := by
  have hred : process_file env p files now =
      ⟨PFOutcome.alreadyNormalized, dset files p.pathStr (freshRecord p now),
       []⟩ := by
    simp only [process_file, hp, hf, hm]
    rw [if_pos hg]
  rw [hred]
  exact ⟨rfl, rfl, dget_dset _ _ _⟩

/-- Witness for C5: probing the three-stream file, measured peak 0 dBFS
gives gain −0.1 dB ≤ 0.05; the call reports already-normalized, invokes no
transcode and stores the completion record. -/
theorem no_transcode_below_epsilon_witness :
    (process_file
        ⟨Except.ok c2Meta, Except.ok (some 0), TRes.ok, TRes.ok, false,
         some 2048, true⟩
        ⟨"F", "a.mkv", ".mkv", 0, 7, []⟩ [] "now").outcome =
      PFOutcome.alreadyNormalized ∧
    (process_file
        ⟨Except.ok c2Meta, Except.ok (some 0), TRes.ok, TRes.ok, false,
         some 2048, true⟩
        ⟨"F", "a.mkv", ".mkv", 0, 7, []⟩ [] "now").events = [] ∧
    dget (process_file
        ⟨Except.ok c2Meta, Except.ok (some 0), TRes.ok, TRes.ok, false,
         some 2048, true⟩
        ⟨"F", "a.mkv", ".mkv", 0, 7, []⟩ [] "now").files "F" =
      some (freshRecord ⟨"F", "a.mkv", ".mkv", 0, 7, []⟩ "now") :=
  no_transcode_below_epsilon
    ⟨Except.ok c2Meta, Except.ok (some 0), TRes.ok, TRes.ok, false,
     some 2048, true⟩
    ⟨"F", "a.mkv", ".mkv", 0, 7, []⟩ [] "now" c2Meta 1 0
    rfl (by decide) rfl (by norm_num [TARGET_PEAK_DBFS])

/-! ## Main-audio selection (C6) -/

/-- C6: the main audio stream is the first audio stream (container order)
whose default-disposition flag is 1; with no flagged stream it is the
first audio stream; with no audio stream at all selection yields `none`
and `process_file` skips the file without touching the store. -/
theorem main_audio_selection (m : FfMeta) (env : PFEnv) (p : PFile)
    (files : StateMap) (now : String) :
    (∀ pre s post,
        m.streams.filter (fun t => t.codecType == "audio") =
          pre ++ s :: post →
        (∀ t ∈ pre, t.dispositionDefault ≠ 1) → s.dispositionDefault = 1 →
        find_main_audio_abs_index m = some s.index) ∧
    (∀ a0 rest,
        m.streams.filter (fun t => t.codecType == "audio") = a0 :: rest →
        (∀ t ∈ a0 :: rest, t.dispositionDefault ≠ 1) →
        find_main_audio_abs_index m = some a0.index) ∧
    (m.streams.filter (fun t => t.codecType == "audio") = [] →
        find_main_audio_abs_index m = none ∧
        (env.probe = Except.ok m →
          (process_file env p files now).outcome = PFOutcome.noAudio ∧
          (process_file env p files now).files = files)) := by
  refine ⟨?_, ?_, ?_⟩
  · intro pre s post haudio hpre hs
    have hfind : (m.streams.filter (fun t => t.codecType == "audio")).find?
        (fun t => t.dispositionDefault == 1) = some s := by
      rw [haudio, List.find?_append]
      have hnone : pre.find? (fun t => t.dispositionDefault == 1) = none := by
        rw [List.find?_eq_none]
        intro t ht
        simpa using hpre t ht
      rw [hnone]
      have : (s :: post).find? (fun t => t.dispositionDefault == 1) =
          some s := List.find?_cons_of_pos _ (by simpa using hs)
      simpa using this
    unfold find_main_audio_abs_index
    cases pre with
    | nil =>
        rw [haudio] at hfind ⊢
        dsimp only at hfind ⊢
        rw [hfind]
        simp
    | cons q pre2 =>
        rw [haudio] at hfind ⊢
        dsimp only at hfind ⊢
        rw [hfind]
        simp
  · intro a0 rest haudio hall
    have hnone : (m.streams.filter (fun t => t.codecType == "audio")).find?
        (fun t => t.dispositionDefault == 1) = none := by
      rw [haudio, List.find?_eq_none]
      intro t ht
      simpa using hall t ht
    unfold find_main_audio_abs_index
    rw [haudio] at hnone ⊢
    dsimp only at hnone ⊢
    rw [hnone]
  · intro haudio
    have hsel : find_main_audio_abs_index m = none := by
      unfold find_main_audio_abs_index
      rw [haudio]
    refine ⟨hsel, fun hp => ?_⟩
    have hred : process_file env p files now =
        ⟨PFOutcome.noAudio, files, []⟩ := by
      simp only [process_file, hp, hsel]
    rw [hred]
    exact ⟨rfl, rfl⟩

/-- Witness for C6 at three concrete layouts: a default-flagged second
audio stream wins over the first audio stream; with no default flag the
first audio stream wins; an audio-free file yields no selection and
`process_file` skips it leaving the store empty. -/
theorem main_audio_selection_witness :
    find_main_audio_abs_index
        ⟨[⟨0, "video", none, 1⟩, ⟨3, "audio", some "aac", 0⟩,
          ⟨4, "audio", some "ac3", 1⟩]⟩ = some 4 ∧
    find_main_audio_abs_index
        ⟨[⟨5, "audio", some "aac", 0⟩, ⟨6, "audio", some "ac3", 0⟩]⟩ =
      some 5 ∧
    find_main_audio_abs_index ⟨[⟨0, "video", none, 1⟩]⟩ = none ∧
    (process_file
        ⟨Except.ok ⟨[⟨0, "video", none, 1⟩]⟩, Except.ok none, TRes.ok,
         TRes.ok, false, none, false⟩
        ⟨"F", "a.mkv", ".mkv", 0, 7, []⟩ [] "now").outcome =
      PFOutcome.noAudio ∧
    (process_file
        ⟨Except.ok ⟨[⟨0, "video", none, 1⟩]⟩, Except.ok none, TRes.ok,
         TRes.ok, false, none, false⟩
        ⟨"F", "a.mkv", ".mkv", 0, 7, []⟩ [] "now").files = [] := by
  refine ⟨?_, ?_, ?_, ?_, ?_⟩
  · exact (main_audio_selection
      ⟨[⟨0, "video", none, 1⟩, ⟨3, "audio", some "aac", 0⟩,
        ⟨4, "audio", some "ac3", 1⟩]⟩
      ⟨Except.ok ⟨[]⟩, Except.ok none, TRes.ok, TRes.ok, false, none, false⟩
      ⟨"F", "a.mkv", ".mkv", 0, 7, []⟩ [] "now").1
      [⟨3, "audio", some "aac", 0⟩] ⟨4, "audio", some "ac3", 1⟩ []
      (by decide) (by decide) (by decide)
  · exact (main_audio_selection
      ⟨[⟨5, "audio", some "aac", 0⟩, ⟨6, "audio", some "ac3", 0⟩]⟩
      ⟨Except.ok ⟨[]⟩, Except.ok none, TRes.ok, TRes.ok, false, none, false⟩
      ⟨"F", "a.mkv", ".mkv", 0, 7, []⟩ [] "now").2.1
      ⟨5, "audio", some "aac", 0⟩ [⟨6, "audio", some "ac3", 0⟩]
      (by decide) (by decide)
  · exact ((main_audio_selection ⟨[⟨0, "video", none, 1⟩]⟩
      ⟨Except.ok ⟨[⟨0, "video", none, 1⟩]⟩, Except.ok none, TRes.ok,
       TRes.ok, false, none, false⟩
      ⟨"F", "a.mkv", ".mkv", 0, 7, []⟩ [] "now").2.2 (by decide)).1
  · exact (((main_audio_selection ⟨[⟨0, "video", none, 1⟩]⟩
      ⟨Except.ok ⟨[⟨0, "video", none, 1⟩]⟩, Except.ok none, TRes.ok,
       TRes.ok, false, none, false⟩
      ⟨"F", "a.mkv", ".mkv", 0, 7, []⟩ [] "now").2.2 (by decide)).2 rfl).1
  · exact (((main_audio_selection ⟨[⟨0, "video", none, 1⟩]⟩
      ⟨Except.ok ⟨[⟨0, "video", none, 1⟩]⟩, Except.ok none, TRes.ok,
       TRes.ok, false, none, false⟩
      ⟨"F", "a.mkv", ".mkv", 0, 7, []⟩ [] "now").2.2 (by decide)).2 rfl).2

/-! ## The subtitle fallback and the store-update invariant -/

lemma dget_cons_isSome {α β : Type} [DecidableEq α] (kv : α × β)
    (m : List (α × β)) (key : α) (h : (dget m key).isSome) :
    (dget (kv :: m) key).isSome := by
  unfold dget
  cases hdg : dget m key with
  | some v => simp
  | none => rw [hdg] at h; simp at h

lemma dget_cons_self {α β : Type} [DecidableEq α] (a : α) (b : β)
    (m : List (α × β)) : (dget ((a, b) :: m) a).isSome := by
  unfold dget
  cases hdg : dget m a with
  | some v => simp
  | none => simp

/-- Every audio stream's index is a key of the audio-order mapping. -/
lemma buildOrderGo_mem : ∀ (l : List FfStream) (s : FfStream), s ∈ l →
    s.codecType = "audio" → ∀ k, (dget (buildOrderGo l k) s.index).isSome := by
  intro l
  induction l with
  | nil => intro s hs; cases hs
  | cons t rest ih =>
      intro s hs ha k
      rcases List.mem_cons.mp hs with rfl | hmem
      · have hb : buildOrderGo (s :: rest) k =
            (s.index, k) :: buildOrderGo rest (k + 1) := by
          simp [buildOrderGo, ha]
        rw [hb]
        exact dget_cons_self _ _ _
      · by_cases ht : t.codecType == "audio"
        · have hb : buildOrderGo (t :: rest) k =
              (t.index, k) :: buildOrderGo rest (k + 1) := by
            simp [buildOrderGo, ht]
          rw [hb]
          exact dget_cons_isSome _ _ _ (ih s hmem ha (k + 1))
        · have hb : buildOrderGo (t :: rest) k = buildOrderGo rest k := by
            simp [buildOrderGo, ht]
          rw [hb]
          exact ih s hmem ha k

/-- The per-audio-stream directives never raise when every index has an
order. -/
lemma audioCodecArgs_ok (mapping : List (Nat × Nat)) (mainAbs : Nat) :
    ∀ l : List FfStream, (∀ s ∈ l, (dget mapping s.index).isSome) →
    ∃ args, audioCodecArgs mapping mainAbs l = Except.ok args := by
  intro l
  induction l with
  | nil => intro _; exact ⟨[], rfl⟩
  | cons s rest ih =>
      intro h
      obtain ⟨v, hv⟩ := Option.isSome_iff_exists.mp
        (h s (List.mem_cons_self s rest))
      obtain ⟨args, hargs⟩ := ih (fun t ht => h t (List.mem_cons_of_mem s ht))
      cases hres : audioCodecArgs mapping mainAbs (s :: rest) with
      | ok r => exact ⟨r, rfl⟩
      | error e =>
          simp only [audioCodecArgs, hv, hargs] at hres
          cases hres

/-- A selected main audio stream always has an audio order. -/
lemma find_main_order_isSome {m : FfMeta} {i : Nat}
    (hf : find_main_audio_abs_index m = some i) :
    (dget (build_audio_absindex_to_order m) i).isSome := by
  unfold find_main_audio_abs_index at hf
  cases haudio : m.streams.filter (fun t => t.codecType == "audio") with
  | nil => rw [haudio] at hf; cases hf
  | cons a0 rest =>
      rw [haudio] at hf
      dsimp only at hf
      cases hfind : (a0 :: rest).find?
          (fun t => t.dispositionDefault == 1) with
      | some s =>
          rw [hfind] at hf
          dsimp only at hf
          have hsi : s.index = i := Option.some.inj hf
          have hmem : s ∈ m.streams.filter (fun t => t.codecType == "audio") :=
            haudio ▸ List.mem_of_find?_eq_some hfind
          have h2 := List.mem_filter.mp hmem
          exact hsi ▸ buildOrderGo_mem m.streams s h2.1 (by simpa using h2.2) 0
      | none =>
          rw [hfind] at hf
          dsimp only at hf
          have hsi : a0.index = i := Option.some.inj hf
          have hmem : a0 ∈ m.streams.filter
              (fun t => t.codecType == "audio") :=
            haudio ▸ List.mem_cons_self a0 rest
          have h2 := List.mem_filter.mp hmem
          exact hsi ▸ buildOrderGo_mem m.streams a0 h2.1 (by simpa using h2.2) 0

/-- With a selected main audio stream, `build_map_and_codecs` never
raises. -/
lemma build_map_ok {m : FfMeta} {i : Nat}
    (hf : find_main_audio_abs_index m = some i) (skip : Bool) :
    ∃ x, build_map_and_codecs m i skip = Except.ok x := by
  obtain ⟨ord, hord⟩ := Option.isSome_iff_exists.mp (find_main_order_isSome hf)
  have hall : ∀ s ∈ m.streams.filter (fun t => t.codecType == "audio"),
      (dget (build_audio_absindex_to_order m) s.index).isSome := by
    intro s hs
    have h2 := List.mem_filter.mp hs
    exact buildOrderGo_mem m.streams s h2.1 (by simpa using h2.2) 0
  obtain ⟨args, hargs⟩ :=
    audioCodecArgs_ok (build_audio_absindex_to_order m) i _ hall
  cases hres : build_map_and_codecs m i skip with
  | ok r => exact ⟨r, rfl⟩
  | error e =>
      simp only [build_map_and_codecs, hord, hargs] at hres
      cases hres

lemma afterTranscode_events (env : PFEnv) (p : PFile) (files : StateMap)
    (now : String) (evs : List Ev) :
    (afterTranscode env p files now evs).events = evs := by
  unfold afterTranscode
  cases env.tmpStat with
  | none => rfl
  | some sz =>
      by_cases h1 : sz < MIN_OUTPUT_FILE_SIZE_BYTES
      · simp [h1]
      · by_cases h2 : env.swapOk <;> simp [h1, h2]

/-- C7: when the first transcode raises a diagnostic matching one of the
fixed subtitle/container signatures, the failed tmp output is deleted (when
present) and the transcode is retried exactly once with subtitles excluded;
a non-matching diagnostic propagates with no retry and no store change. -/
theorem transcode_subtitle_fallback (env : PFEnv) (p : PFile)
    (files : StateMap) (now : String) (m : FfMeta) (i : Nat) (peak : ℚ)
    (msg : String)
    (hp : env.probe = Except.ok m)
    (hf : find_main_audio_abs_index m = some i)
    (hm : env.measured = Except.ok (some peak))
    (hg : ¬ (TARGET_PEAK_DBFS - peak ≤ 1 / 20))
    (h1 : env.transcodeWithSubs = TRes.err msg) :
    (isSubtitleSignature msg = true →
        (process_file env p files now).events =
          [Ev.transcodeInvoked false] ++
            (if env.tmpLeftAfterFail then [Ev.tmpDeleted] else []) ++
            [Ev.transcodeInvoked true]) ∧
    (isSubtitleSignature msg = false →
        (process_file env p files now).outcome = PFOutcome.exc msg ∧
        (process_file env p files now).events = [Ev.transcodeInvoked false] ∧
        (process_file env p files now).files = files) := by
  obtain ⟨x0, hb0⟩ := build_map_ok hf false
  obtain ⟨x1, hb1⟩ := build_map_ok hf true
  have happ1 : applyRun env m i false =
      (Except.error msg, [Ev.transcodeInvoked false]) := by
    simp [applyRun, hb0, h1]
  constructor
  · intro hsig
    cases ht2 : env.transcodeNoSubs with
    | ok =>
        have happ2 : applyRun env m i true =
            (Except.ok (), [Ev.transcodeInvoked true]) := by
          simp [applyRun, hb1, ht2]
        have hred : process_file env p files now =
            afterTranscode env p files now
              (([Ev.transcodeInvoked false] ++
                (if env.tmpLeftAfterFail then [Ev.tmpDeleted] else [])) ++
               [Ev.transcodeInvoked true]) := by
          simp only [process_file, hp, hf, hm]
          rw [if_neg hg, happ1]
          dsimp only
          rw [hsig]
          rw [if_pos rfl]
          rw [happ2]
        rw [hred, afterTranscode_events]
    | err msg2 =>
        have happ2 : applyRun env m i true =
            (Except.error msg2, [Ev.transcodeInvoked true]) := by
          simp [applyRun, hb1, ht2]
        have hred : process_file env p files now =
            ⟨PFOutcome.exc msg2, files,
             ([Ev.transcodeInvoked false] ++
              (if env.tmpLeftAfterFail then [Ev.tmpDeleted] else [])) ++
             [Ev.transcodeInvoked true]⟩ := by
          simp only [process_file, hp, hf, hm]
          rw [if_neg hg, happ1]
          dsimp only
          rw [hsig]
          rw [if_pos rfl]
          rw [happ2]
        rw [hred]
  · intro hsig
    have hred : process_file env p files now =
        ⟨PFOutcome.exc msg, files, [Ev.transcodeInvoked false]⟩ := by
      simp only [process_file, hp, hf, hm]
      rw [if_neg hg, happ1]
      dsimp only
      rw [hsig]
      rw [if_neg (by simp)]
    rw [hred]
    exact ⟨rfl, rfl, rfl⟩

/-- Witness for C7: a "Could not write header" diagnostic triggers exactly
one subtitle-free retry with the failed tmp deleted in between, while a
"No space left on device" diagnostic propagates after a single invocation
with the store untouched. -/
theorem transcode_subtitle_fallback_witness :
    (process_file
        ⟨Except.ok c2Meta, Except.ok (some (-3)),
         TRes.err "Could not write header for output file", TRes.err "x",
         true, some 2048, true⟩
        ⟨"F", "a.mkv", ".mkv", 0, 7, []⟩ [] "now").events =
      [Ev.transcodeInvoked false, Ev.tmpDeleted, Ev.transcodeInvoked true] ∧
    (process_file
        ⟨Except.ok c2Meta, Except.ok (some (-3)),
         TRes.err "No space left on device", TRes.ok,
         true, some 2048, true⟩
        ⟨"F", "a.mkv", ".mkv", 0, 7, []⟩ [] "now").outcome =
      PFOutcome.exc "No space left on device" ∧
    (process_file
        ⟨Except.ok c2Meta, Except.ok (some (-3)),
         TRes.err "No space left on device", TRes.ok,
         true, some 2048, true⟩
        ⟨"F", "a.mkv", ".mkv", 0, 7, []⟩ [] "now").events =
      [Ev.transcodeInvoked false] ∧
    (process_file
        ⟨Except.ok c2Meta, Except.ok (some (-3)),
         TRes.err "No space left on device", TRes.ok,
         true, some 2048, true⟩
        ⟨"F", "a.mkv", ".mkv", 0, 7, []⟩ [] "now").files = [] := by
  refine ⟨?_, ?_, ?_, ?_⟩
  · exact (transcode_subtitle_fallback
      ⟨Except.ok c2Meta, Except.ok (some (-3)),
       TRes.err "Could not write header for output file", TRes.err "x",
       true, some 2048, true⟩
      ⟨"F", "a.mkv", ".mkv", 0, 7, []⟩ [] "now" c2Meta 1 (-3)
      "Could not write header for output file"
      rfl (by decide) rfl (by norm_num [TARGET_PEAK_DBFS]) rfl).1 (by decide)
  · exact ((transcode_subtitle_fallback
      ⟨Except.ok c2Meta, Except.ok (some (-3)),
       TRes.err "No space left on device", TRes.ok, true, some 2048, true⟩
      ⟨"F", "a.mkv", ".mkv", 0, 7, []⟩ [] "now" c2Meta 1 (-3)
      "No space left on device"
      rfl (by decide) rfl (by norm_num [TARGET_PEAK_DBFS]) rfl).2
      (by decide)).1
  · exact ((transcode_subtitle_fallback
      ⟨Except.ok c2Meta, Except.ok (some (-3)),
       TRes.err "No space left on device", TRes.ok, true, some 2048, true⟩
      ⟨"F", "a.mkv", ".mkv", 0, 7, []⟩ [] "now" c2Meta 1 (-3)
      "No space left on device"
      rfl (by decide) rfl (by norm_num [TARGET_PEAK_DBFS]) rfl).2
      (by decide)).2.1
  · exact ((transcode_subtitle_fallback
      ⟨Except.ok c2Meta, Except.ok (some (-3)),
       TRes.err "No space left on device", TRes.ok, true, some 2048, true⟩
      ⟨"F", "a.mkv", ".mkv", 0, 7, []⟩ [] "now" c2Meta 1 (-3)
      "No space left on device"
      rfl (by decide) rfl (by norm_num [TARGET_PEAK_DBFS]) rfl).2
      (by decide)).2.2

lemma afterTranscode_spec (env : PFEnv) (p : PFile) (files : StateMap)
    (now : String) (evs : List Ev) :
    ((afterTranscode env p files now evs).outcome = PFOutcome.success ∧
     (afterTranscode env p files now evs).files =
       dset files p.pathStr (freshRecord p now)) ∨
    ((afterTranscode env p files now evs).outcome ≠ PFOutcome.success ∧
     (afterTranscode env p files now evs).outcome ≠
       PFOutcome.alreadyNormalized ∧
     (afterTranscode env p files now evs).files = files) := by
  unfold afterTranscode
  cases env.tmpStat with
  | none => right; exact ⟨by simp, by simp, rfl⟩
  | some sz =>
      by_cases h1 : sz < MIN_OUTPUT_FILE_SIZE_BYTES
      · right
        refine ⟨?_, ?_, ?_⟩ <;> simp [h1]
      · by_cases h2 : env.swapOk
        · left
          constructor <;> simp [h1, h2]
        · right
          refine ⟨?_, ?_, ?_⟩ <;> simp [h1, h2]

/-- C8: the store's record for the processed path is written (as the fresh
completion record) exactly when the workflow ends in success or in
confirmed already-normalized; every failure outcome (no audio stream,
unmeasurable peak, a propagated transcode/validation exception, swap
failure) leaves the whole store unchanged. -/
theorem store_update_iff_success (env : PFEnv) (p : PFile)
    (files : StateMap) (now : String) :
    (((process_file env p files now).outcome = PFOutcome.success ∨
      (process_file env p files now).outcome = PFOutcome.alreadyNormalized) ∧
     (process_file env p files now).files =
       dset files p.pathStr (freshRecord p now)) ∨
    ((process_file env p files now).outcome ≠ PFOutcome.success ∧
     (process_file env p files now).outcome ≠ PFOutcome.alreadyNormalized ∧
     (process_file env p files now).files = files) := by
  cases hpr : env.probe with
  | error e =>
      have hred : process_file env p files now =
          ⟨PFOutcome.exc e, files, []⟩ := by
        simp only [process_file, hpr]
      rw [hred]
      right
      exact ⟨by simp, by simp, rfl⟩
  | ok m =>
  cases hfm : find_main_audio_abs_index m with
  | none =>
      have hred : process_file env p files now =
          ⟨PFOutcome.noAudio, files, []⟩ := by
        simp only [process_file, hpr, hfm]
      rw [hred]
      right
      exact ⟨by simp, by simp, rfl⟩
  | some i =>
  cases hms : env.measured with
  | error e =>
      have hred : process_file env p files now =
          ⟨PFOutcome.exc e, files, []⟩ := by
        simp only [process_file, hpr, hfm, hms]
      rw [hred]
      right
      exact ⟨by simp, by simp, rfl⟩
  | ok op =>
  cases op with
  | none =>
      have hred : process_file env p files now =
          ⟨PFOutcome.noPeak, files, []⟩ := by
        simp only [process_file, hpr, hfm, hms]
      rw [hred]
      right
      exact ⟨by simp, by simp, rfl⟩
  | some peak =>
  by_cases hg : TARGET_PEAK_DBFS - peak ≤ 1 / 20
  · have hred : process_file env p files now =
        ⟨PFOutcome.alreadyNormalized,
         dset files p.pathStr (freshRecord p now), []⟩ := by
      simp only [process_file, hpr, hfm, hms]
      rw [if_pos hg]
    rw [hred]
    left
    exact ⟨Or.inr rfl, rfl⟩
  · rcases happ1 : applyRun env m i false with ⟨res1, evs1⟩
    cases res1 with
    | ok u =>
        have hred : process_file env p files now =
            afterTranscode env p files now evs1 := by
          simp only [process_file, hpr, hfm, hms]
          rw [if_neg hg, happ1]
        rw [hred]
        rcases afterTranscode_spec env p files now evs1 with ⟨h1, h2⟩ | h
        · left; exact ⟨Or.inl h1, h2⟩
        · right; exact h
    | error msg =>
        by_cases hsig : isSubtitleSignature msg
        · rcases happ2 : applyRun env m i true with ⟨res2, evs2⟩
          cases res2 with
          | ok u =>
              have hred : process_file env p files now =
                  afterTranscode env p files now
                    ((evs1 ++
                      (if env.tmpLeftAfterFail then [Ev.tmpDeleted]
                       else [])) ++ evs2) := by
                simp only [process_file, hpr, hfm, hms]
                rw [if_neg hg, happ1]
                dsimp only
                rw [hsig]
                rw [if_pos rfl]
                rw [happ2]
              rw [hred]
              rcases afterTranscode_spec env p files now
                  ((evs1 ++ (if env.tmpLeftAfterFail then [Ev.tmpDeleted]
                    else [])) ++ evs2) with ⟨h1, h2⟩ | h
              · left; exact ⟨Or.inl h1, h2⟩
              · right; exact h
          | error msg2 =>
              have hred : process_file env p files now =
                  ⟨PFOutcome.exc msg2, files,
                   (evs1 ++
                    (if env.tmpLeftAfterFail then [Ev.tmpDeleted]
                     else [])) ++ evs2⟩ := by
                simp only [process_file, hpr, hfm, hms]
                rw [if_neg hg, happ1]
                dsimp only
                rw [hsig]
                rw [if_pos rfl]
                rw [happ2]
              rw [hred]
              right
              exact ⟨by simp, by simp, rfl⟩
        · have hred : process_file env p files now =
              ⟨PFOutcome.exc msg, files, evs1⟩ := by
            simp only [process_file, hpr, hfm, hms]
            rw [if_neg hg, happ1]
            dsimp only
            rw [if_neg hsig]
          rw [hred]
          right
          exact ⟨by simp, by simp, rfl⟩

/-- Witness for C8 at two concrete runs: a probe failure leaves the store
untouched, and an already-normalized file receives its completion
record. -/
theorem store_update_iff_success_witness :
    ((((process_file
          ⟨Except.error "ffprobe failed", Except.ok none, TRes.ok, TRes.ok,
           false, none, false⟩
          ⟨"F", "a.mkv", ".mkv", 0, 7, []⟩ [] "now").outcome =
            PFOutcome.success ∨
       (process_file
          ⟨Except.error "ffprobe failed", Except.ok none, TRes.ok, TRes.ok,
           false, none, false⟩
          ⟨"F", "a.mkv", ".mkv", 0, 7, []⟩ [] "now").outcome =
            PFOutcome.alreadyNormalized) ∧
      (process_file
          ⟨Except.error "ffprobe failed", Except.ok none, TRes.ok, TRes.ok,
           false, none, false⟩
          ⟨"F", "a.mkv", ".mkv", 0, 7, []⟩ [] "now").files =
        dset [] "F" (freshRecord ⟨"F", "a.mkv", ".mkv", 0, 7, []⟩ "now")) ∨
     ((process_file
          ⟨Except.error "ffprobe failed", Except.ok none, TRes.ok, TRes.ok,
           false, none, false⟩
          ⟨"F", "a.mkv", ".mkv", 0, 7, []⟩ [] "now").outcome ≠
        PFOutcome.success ∧
      (process_file
          ⟨Except.error "ffprobe failed", Except.ok none, TRes.ok, TRes.ok,
           false, none, false⟩
          ⟨"F", "a.mkv", ".mkv", 0, 7, []⟩ [] "now").outcome ≠
        PFOutcome.alreadyNormalized ∧
      (process_file
          ⟨Except.error "ffprobe failed", Except.ok none, TRes.ok, TRes.ok,
           false, none, false⟩
          ⟨"F", "a.mkv", ".mkv", 0, 7, []⟩ [] "now").files = [])) :=
  store_update_iff_success
    ⟨Except.error "ffprobe failed", Except.ok none, TRes.ok, TRes.ok,
     false, none, false⟩
    ⟨"F", "a.mkv", ".mkv", 0, 7, []⟩ [] "now"
